import Mathlib

/-
  Verification of the R033/R065 reconciliation pipeline of src/logic.py
  (class ExcelProcessor).  The pandas dataframes are embedded as lists of
  named columns and rows of cells; the two worker threads are embedded as
  event traces with an interleaving small-step semantics.
-/

/-- A spreadsheet cell: a blank (pandas NaN), a string, or a number.
Numbers are modelled as integers. -/
inductive Cell where
  | blank : Cell
  | str (s : String) : Cell
  | num (n : Int) : Cell
deriving DecidableEq, Repr

/-- Python str() / pandas astype(str) of a cell; astype(str) renders NaN
as the literal string nan. -/
def cellStr : Cell → String
  | Cell.blank => "nan"
  | Cell.str s => s
  | Cell.num n => toString n

/-- pandas notna. -/
def cellNotNa : Cell → Bool
  | Cell.blank => false
  | _ => true

/-- Python str.upper (ASCII case mapping), over the character list. -/
def toUpperStr (s : String) : String := ⟨s.data.map Char.toUpper⟩

/-- Python str.strip, over the character list. -/
def trimChars (l : List Char) : List Char :=
  ((l.dropWhile Char.isWhitespace).reverse.dropWhile Char.isWhitespace).reverse

/-- Python str.strip. -/
def trimStr (s : String) : String := ⟨trimChars s.data⟩

/-- The numeric value of one decimal digit character. -/
def charDigit (c : Char) : Option Nat :=
  if c.isDigit then some (c.toNat - 48) else none

/-- Accumulate a digit list into a natural number; none on a non-digit. -/
def digitsVal (l : List Char) : Option Nat :=
  l.foldl (fun acc c =>
    match acc, charDigit c with
    | some a, some d => some (a * 10 + d)
    | _, _ => none) (some 0)

/-- Parse an optionally-signed decimal integer literal. -/
def strToIntOpt (s : String) : Option Int :=
  match s.data with
  | [] => none
  | '-' :: rest =>
    if rest.isEmpty then none
    else (digitsVal rest).map (fun n => -(n : Int))
  | l => (digitsVal l).map (fun n => (n : Int))

/-- pandas to_numeric(errors=coerce).fillna(0): numbers pass through,
integer-numeral strings parse, everything else (and NaN) becomes 0. -/
def cellToNum : Cell → Int
  | Cell.blank => 0
  | Cell.num n => n
  | Cell.str s => (strToIntOpt s).getD 0

/-- Substring containment over character lists (Python `in` on strings). -/
def charsContainSub (pat : List Char) : List Char → Bool
  | [] => pat.isEmpty
  | c :: rest => pat.isPrefixOf (c :: rest) || charsContainSub pat rest

/-- Python substring test: pat occurs inside s. -/
def strContainsSub (s pat : String) : Bool :=
  charsContainSub pat.data s.data

/-- A pandas DataFrame: named columns and positional rows of cells. -/
structure DF where
  cols : List String
  rows : List (List Cell)
deriving DecidableEq, Repr

/-- pd.DataFrame() with no content. -/
def DF.emptyDF : DF := ⟨[], []⟩

/-- The cell of row r under the column named c (first matching column),
blank if the column is absent. -/
def getCell (cols : List String) (r : List Cell) (c : String) : Cell :=
  match cols.findIdx? (fun x => decide (x = c)) with
  | some i => r.getD i Cell.blank
  | none => Cell.blank

/-- ExcelProcessor._find_column: scan the dataframe columns in order and
return the first one whose trimmed, upper-cased name equals (exact mode)
or contains as a substring (otherwise) some alias, upper-cased and
trimmed. -/
def findColumn (cols : List String) (possibleNames : List String) (exactMatch : Bool) : Option String :=
  cols.find? (fun col =>
    let colUpper := toUpperStr (trimStr col)
    possibleNames.any (fun name =>
      let nameUpper := trimStr (toUpperStr name)
      if exactMatch then decide (colUpper = nameUpper)
      else strContainsSub colUpper nameUpper))

/-- The sentinel message filter_r065 keeps (MENSAJE_FILTRO_R065). -/
def MENSAJE_FILTRO_R065 : String := "No se encuentra en RMS el ítem para esta factura"

/-- Resolution of the MENSAJE column inside filter_r065: the first column
whose upper-cased name contains MENSAJE (the column name is not trimmed
here, matching the source). -/
def mensajeColOf (df : DF) : Option String :=
  df.cols.find? (fun col => strContainsSub (toUpperStr col) "MENSAJE")

/-- ExcelProcessor.filter_r065: if no MENSAJE column resolves, return a
full copy; otherwise keep exactly the rows whose message value, rendered
with str and stripped, equals the sentinel. -/
def filterR065 (df : DF) : DF :=
  match mensajeColOf df with
  | none => df
  | some col =>
    { cols := df.cols
      rows := df.rows.filter (fun r =>
        decide (trimStr (cellStr (getCell df.cols r col)) = MENSAJE_FILTRO_R065)) }

/-- Number of expected headers present verbatim among the row's trimmed,
string-rendered cell values (logic.py line 107). -/
def headerMatchCount (expectedHeaders : List String) (row : List Cell) : Nat :=
  (expectedHeaders.filter (fun h => (row.map (fun c => trimStr (cellStr c))).contains h)).length

/-- The 70 percent threshold test of _find_header_in_dataframe; the float
comparison matches / len >= 0.7 is modelled as the exact rational
comparison 10 * matches >= 7 * len. -/
def rowQualifies (expectedHeaders : List String) (row : List Cell) : Bool :=
  decide (7 * expectedHeaders.length ≤ 10 * headerMatchCount expectedHeaders row)

/-- The scan loop of _find_header_in_dataframe over the remaining rows,
carrying the absolute index of the first remaining row.  The none result
models the ZeroDivisionError Python raises when the expected-header list
is empty and at least one row is examined (match_ratio = 0 / 0). -/
def findHeaderAux (expectedHeaders : List String) : Nat → List (List Cell) → Option Nat
  | _, [] => some 0
  | i, r :: rest =>
    if expectedHeaders.isEmpty then none
    else if rowQualifies expectedHeaders r then some i
    else findHeaderAux expectedHeaders (i + 1) rest

/-- The search window of the header locator: the first min(20, len) rows. -/
def headerWindow (rows : List (List Cell)) : List (List Cell) := rows.take 20

/-- ExcelProcessor._find_header_in_dataframe: scan the first
min(20, len(rows)) rows; first row reaching the threshold wins, else 0. -/
def findHeaderRow (rows : List (List Cell)) (expectedHeaders : List String) : Option Nat :=
  findHeaderAux expectedHeaders 0 (headerWindow rows)

/-- pandas drop_duplicates(keep=first) on the key extracted by k, with the
set of already-seen keys as accumulator. -/
def dedupByKeyAux {α β : Type} [DecidableEq β] (k : α → β) : List α → List β → List α
  | [], _ => []
  | x :: rest, seen =>
    if k x ∈ seen then dedupByKeyAux k rest seen
    else x :: dedupByKeyAux k rest (k x :: seen)

/-- pandas drop_duplicates(keep=first) on the key extracted by k. -/
def dedupByKey {α β : Type} [DecidableEq β] (k : α → β) (l : List α) : List α :=
  dedupByKeyAux k l []

/-- The R065-side order-key resolution of process_and_merge (PASO 4.1). -/
def resolveOC65 (df : DF) : Option String :=
  findColumn df.cols ["ORDEN COMPRA", "ORDEN_COMPRA", "OC"] false

/-- The R033-side order-key resolution of process_and_merge (PASO 4.1). -/
def resolveOC33 (df : DF) : Option String :=
  findColumn df.cols ["Orden de Compra", "ORDEN DE COMPRA", "OC"] false

/-- Exact-match resolution of the Tienda column (PASO 4.2). -/
def resolveTienda (df : DF) : Option String :=
  findColumn df.cols ["Tienda"] true

/-- Exact-match resolution of the Estatus column (PASO 4.3). -/
def resolveEstatus (df : DF) : Option String :=
  findColumn df.cols ["Estatus"] true

/-- One projected R033 lookup row before any duplicate drop or key
normalisation: (raw order key, Centro de Costo, Estatus R033); a missing
Tienda or Estatus column yields the empty-string cell (PASO 4.4). -/
def projectLookup (df33 : DF) (ocCol : String) (ccCol estCol : Option String) : List (Cell × Cell × Cell) :=
  df33.rows.map (fun r =>
    (getCell df33.cols r ocCol,
     (match ccCol with | some c => getCell df33.cols r c | none => Cell.str ""),
     (match estCol with | some c => getCell df33.cols r c | none => Cell.str "")))

/-- drop_duplicates(subset=OC_MERGE, keep=first), which in the source
(line 371) runs on the raw key, BEFORE the astype(str).str.strip()
normalisation of line 376. -/
def lookupDedup (df33 : DF) (ocCol : String) (ccCol estCol : Option String) : List (Cell × Cell × Cell) :=
  dedupByKey (fun x => x.1) (projectLookup df33 ocCol ccCol estCol)

/-- The lookup table actually joined against: keys rendered with str and
stripped only after the duplicate drop. -/
def buildLookup (df33 : DF) (ocCol : String) (ccCol estCol : Option String) : List (String × Cell × Cell) :=
  (lookupDedup df33 ocCol ccCol estCol).map (fun x => (trimStr (cellStr x.1), x.2.1, x.2.2))

/-- The lookup table process_and_merge builds from the R033 dataframe,
with the column resolutions it performs; none when no order-key column
resolves on the R033 side. -/
def lookupOf (df33 : DF) : Option (List (String × Cell × Cell)) :=
  (resolveOC33 df33).map (fun oc =>
    buildLookup df33 oc (resolveTienda df33) (resolveEstatus df33))

/-- pandas left merge of one left row against the lookup on the
normalised key: one output row per matching lookup row, and a row with no
match keeps blank (NaN) enrichment cells. -/
def leftJoinRow (lookup : List (String × Cell × Cell)) (key : String) (r : List Cell) : List (List Cell) :=
  match lookup.filter (fun x => decide (x.1 = key)) with
  | [] => [r ++ [Cell.blank, Cell.blank]]
  | ms => ms.map (fun x => r ++ [x.2.1, x.2.2])

/-- The Centro de Costo cell of a joined row: the position right after the
original R065 columns. -/
def centroCell (n : Nat) (r : List Cell) : Cell := r.getD n Cell.blank

/-- The drop rule of PASO 4.6: keep rows whose Centro de Costo is non-null
and non-blank after str and strip. -/
def keepRow (n : Nat) (r : List Cell) : Bool :=
  cellNotNa (centroCell n r) && decide (trimStr (cellStr (centroCell n r)) ≠ "")

/-- Payment-group derivation of PASO 4.7: CENDIS when the upper-cased
cost-centre string contains CENDIS, else Directo. -/
def grupoDePago (cc : Cell) : Cell :=
  if strContainsSub (toUpperStr (cellStr cc)) "CENDIS" then Cell.str "CENDIS" else Cell.str "Directo"

/-- ExcelProcessor.process_and_merge: resolve the order-key columns (a
miss on either side is the fatal ReconcileError), build the lookup table,
left-join the filtered R065 rows on the normalised key, drop rows whose
Centro de Costo is blank, and derive Grupo de Pago. -/
def processAndMerge (df33 df65 : DF) : Except String DF :=
  match resolveOC65 df65 with
  | none => Except.error "No se encontró columna Orden de Compra en R065"
  | some oc65 =>
    match resolveOC33 df33 with
    | none => Except.error "No se encontró columna Orden de Compra en R033"
    | some oc33 =>
      let lookup := buildLookup df33 oc33 (resolveTienda df33) (resolveEstatus df33)
      let joined := df65.rows.flatMap (fun r =>
        leftJoinRow lookup (trimStr (cellStr (getCell df65.cols r oc65))) r)
      let n := df65.cols.length
      let kept := joined.filter (keepRow n)
      Except.ok
        { cols := df65.cols ++ ["Centro de Costo", "Estatus R033", "Grupo de Pago"]
          rows := kept.map (fun r => r ++ [grupoDePago (centroCell n r)]) }

/-- pandas drop_duplicates(subset=[proveedor, factura], keep=first) over
the whole reconciled row-set (PASO 2 of _create_resumen). -/
def pairsDedup (df : DF) (prov fact : String) : List (List Cell) :=
  dedupByKey (fun r => (getCell df.cols r prov, getCell df.cols r fact)) df.rows

/-- pandas nunique: the number of distinct non-null values. -/
def nunique (cells : List Cell) : Nat :=
  (dedupByKey (fun c => c) (cells.filter cellNotNa)).length

/-- The group keys of a pandas groupby on one column: the distinct
non-null values of that column.  Group order is modelled as first
appearance; no verified property depends on the inter-group order, since
the summary is re-sorted by amount afterwards. -/
def groupKeys (df : DF) (c : String) : List Cell :=
  dedupByKey (fun x => x) ((df.rows.map (fun r => getCell df.cols r c)).filter cellNotNa)

/-- The rows of one groupby group. -/
def groupRows (df : DF) (c : String) (k : Cell) : List (List Cell) :=
  df.rows.filter (fun r => decide (getCell df.cols r c = k))

/-- Número de Ítems of one supplier group: distinct non-null item values
when the item column resolves, else the group's row count. -/
def nItemsOf (df : DF) (prov : String) (item : Option String) (k : Cell) : Nat :=
  match item with
  | some it => nunique ((groupRows df prov k).map (fun r => getCell df.cols r it))
  | none => (groupRows df prov k).length

/-- Número de Facturas of one supplier group, following the branch
structure of _create_resumen on the resolvability of the invoice and
amount columns. -/
def nFactsOf (df : DF) (prov : String) (fact monto : Option String) (k : Cell) : Nat :=
  match fact, monto with
  | some f, some _ =>
    nunique (((pairsDedup df prov f).filter (fun r => decide (getCell df.cols r prov = k))).map
      (fun r => getCell df.cols r f))
  | some f, none =>
    nunique ((groupRows df prov k).map (fun r => getCell df.cols r f))
  | none, _ => (groupRows df prov k).length

/-- Monto Total of one supplier group: the sum of the numeric amounts of
the (proveedor, factura)-deduplicated rows of that supplier; 0 when the
invoice or amount column is missing. -/
def montoTotalOf (df : DF) (prov : String) (fact monto : Option String) (k : Cell) : Int :=
  match fact, monto with
  | some f, some m =>
    ((((pairsDedup df prov f).filter (fun r => decide (getCell df.cols r prov = k))).map
      (fun r => cellToNum (getCell df.cols r m)))).sum
  | _, _ => 0

/-- The amount used for descending sorting of the summary rows: the cell
at position 2 (Monto Total). -/
def montoOfRow (r : List Cell) : Int := cellToNum (r.getD 2 Cell.blank)

/-- Stable descending insertion on Monto Total. -/
def insertDesc (x : List Cell) : List (List Cell) → List (List Cell)
  | [] => [x]
  | y :: rest => if montoOfRow y < montoOfRow x then x :: y :: rest else y :: insertDesc x rest

/-- sort_values(Monto Total, ascending=False), modelled as a stable
insertion sort (no property depends on the order among equal amounts). -/
def sortByMontoDesc : List (List Cell) → List (List Cell)
  | [] => []
  | x :: rest => insertDesc x (sortByMontoDesc rest)

/-- ExcelProcessor._create_resumen: when the supplier column does not
resolve, an EMPTY dataframe is returned (no error); otherwise one row per
supplier group with invoice count, deduplicated amount total and item
count, sorted by amount descending, plus a final TOTAL row. -/
def createResumen (df : DF) : DF :=
  match findColumn df.cols ["NOMBRE PROVEEDOR PADRE"] true with
  | none => DF.emptyDF
  | some prov =>
    let fact := findColumn df.cols ["NRO FACTURA"] false
    let monto := findColumn df.cols ["TOTAL"] true
    let item := findColumn df.cols ["ITEM DESCRIPCION"] true
    let keys := groupKeys df prov
    let groupsOut := keys.map (fun k =>
      [k, Cell.num (nFactsOf df prov fact monto k),
          Cell.num (montoTotalOf df prov fact monto k),
          Cell.num (nItemsOf df prov item k)])
    { cols := ["Proveedor", "Número de Facturas", "Monto Total", "Número de Ítems"]
      rows := sortByMontoDesc groupsOut ++
        [[Cell.str "TOTAL",
          Cell.num ((keys.map (fun k => (nFactsOf df prov fact monto k : Int))).sum),
          Cell.num ((keys.map (fun k => montoTotalOf df prov fact monto k)).sum),
          Cell.num ((keys.map (fun k => (nItemsOf df prov item k : Int))).sum)]] }

/-- Spec-side per-supplier amount total, written from the claim: the sum
over the distinct invoices of supplier k of the first amount value seen
for that (supplier, invoice) pair. -/
def specAmountTotal (df : DF) (prov fact monto : String) (k : Cell) : Int :=
  let supplierRows := df.rows.filter (fun r => decide (getCell df.cols r prov = k))
  let invoices := dedupByKey (fun c => c) (supplierRows.map (fun r => getCell df.cols r fact))
  (invoices.map (fun f =>
    match supplierRows.find? (fun r => decide (getCell df.cols r fact = f)) with
    | some r => cellToNum (getCell df.cols r monto)
    | none => 0)).sum

/-- The sheets create_excel writes (include_originals left at its default
false): the Resumen sheet is silently skipped when the summary dataframe
is empty, and the Resultado sheet always follows. -/
def createExcelSheets (res : DF) : List (String × DF) :=
  let resumen := createResumen res
  (if resumen.rows.isEmpty || resumen.cols.isEmpty then [] else [("Resumen", resumen)]) ++
    [("Resultado", res)]

/-- The fixed dataframe-to-BigQuery column rename table COLUMN_MAPPING_BQ,
in source order. -/
def COLUMN_MAPPING_BQ : List (String × String) :=
  [("ORDEN COMPRA", "col_vpn_orden_compra"),
   ("NRO FACTURA", "col_vpn_nro_factura"),
   ("ID PROVEEDOR", "col_vpn_id_proveedor"),
   ("NOMBRE PROVEEDOR", "col_vpn_nombre_proveedor"),
   ("MENSAJE", "col_vpn_mensaje"),
   ("ITEM 1", "col_vpn_item_1"),
   ("ITEM 2", "col_vpn_item_2"),
   ("VPN", "col_vpn_column_vpn"),
   ("ITEM DESCRIPCION", "col_vpn_item_descripcion"),
   ("FECHA CREACION", "col_vpn_fecha_creacion"),
   ("NOMBRE ARCHIVO", "col_vpn_nombre_archivo"),
   ("ESTADO FACTURA", "col_vpn_estado_factura"),
   ("ID PROVEEDOR PADRE", "col_vpn_id_proveedor_padre"),
   ("NOMBRE PROVEEDOR PADRE", "col_vpn_nombre_proveedor_padre"),
   ("FECHA FACTURA", "col_vpn_fecha_factura"),
   ("SUBTTOTAL", "col_vpn_subtotal"),
   ("IMPUESTO", "col_vpn_impuesto"),
   ("TOTAL", "col_vpn_total"),
   ("Centro de Costo", "col_vpn_centro_costo"),
   ("Estatus R033", "col_vpn_estatus_r033"),
   ("Grupo de Pago", "col_vpn_grupo_pago")]

/-- FLOAT_COLUMNS_BQ. -/
def FLOAT_COLUMNS_BQ : List String :=
  ["col_vpn_subtotal", "col_vpn_impuesto", "col_vpn_total"]

/-- Python dict insertion with overwrite on an association list. -/
def insertAssoc (m : List (String × String)) (k v : String) : List (String × String) :=
  if m.any (fun p => decide (p.1 = k)) then
    m.map (fun p => if decide (p.1 = k) then (k, v) else p)
  else m ++ [(k, v)]

/-- The columns_renamed dict of _prepare_dataframe_for_bigquery: for each
mapping entry, the first dataframe column whose stripped upper-cased name
equals the upper-cased source name is scheduled for renaming. -/
def renameMapFor (cols : List String) : List (String × String) :=
  COLUMN_MAPPING_BQ.foldl (fun acc p =>
    match cols.find? (fun c => decide (toUpperStr (trimStr c) = toUpperStr p.1)) with
    | some c => insertAssoc acc c p.2
    | none => acc) []

/-- df.rename(columns=columns_renamed). -/
def renameCols (cols : List String) : List String :=
  let m := renameMapFor cols
  cols.map (fun c =>
    match m.find? (fun p => decide (p.1 = c)) with
    | some p => p.2
    | none => c)

/-- The per-column cell conversion of _prepare_dataframe_for_bigquery:
float columns through to_numeric/fillna, the two date columns through the
external pandas date parsers (passed in as fdt / fd), every other column
rendered as a string with the literal nan and None values blanked.  The
source applies these as disjoint column-wise passes; they are merged here
into one pass, which is equivalent because the column-name sets are
disjoint. -/
def bqCellTransform (fdt fd : Cell → Cell) (name : String) (c : Cell) : Cell :=
  if FLOAT_COLUMNS_BQ.contains name then Cell.num (cellToNum c)
  else if name = "col_vpn_fecha_creacion" then fdt c
  else if name = "col_vpn_fecha_factura" then fd c
  else Cell.str (if cellStr c = "nan" ∨ cellStr c = "None" then "" else cellStr c)

/-- ExcelProcessor._prepare_dataframe_for_bigquery: rename, convert, and
append the run timestamp column col_vpn_timestamp carrying the single
scalar ts on every row. -/
def prepareForBigQuery (fdt fd : Cell → Cell) (df : DF) (ts : Int) : DF :=
  let cols2 := renameCols df.cols
  { cols := cols2 ++ ["col_vpn_timestamp"]
    rows := df.rows.map (fun r =>
      (List.zipWith (fun name c => bqCellTransform fdt fd name c) cols2 r) ++ [Cell.num ts]) }

/-- The terminal value main builds (the fields the claims mention). -/
structure ProcResult where
  success : Bool
  error : Option String
  excel_path : Option String
  rows_processed : Nat
deriving DecidableEq, Repr

/-- The overall control flow of ExcelProcessor.main as a function of the
outcomes of the external steps: a load failure aborts before the worker
threads start; a filter or merge failure sets the error flag, the Excel
worker aborts and main reports the error; otherwise create_excel runs (its
failure sets the error flag) and the BigQuery upload runs with its result
IGNORED for the final response. -/
def mainRun (loadOk : Bool) (df33 df65 : DF) (createOk uploadOk : Bool) (path : String) : ProcResult :=
  if loadOk = false then
    { success := false, error := some "Error cargando archivos", excel_path := none, rows_processed := 0 }
  else
    match processAndMerge df33 (filterR065 df65) with
    | Except.error msg =>
      { success := false, error := some msg, excel_path := none, rows_processed := 0 }
    | Except.ok res =>
      if createOk then
        { success := true, error := none, excel_path := some path, rows_processed := res.rows.length }
      else
        { success := false, error := some "Error creando Excel", excel_path := none, rows_processed := 0 }

/-- The observable events of the two worker threads. -/
inductive Ev where
  | setComplete : Ev
  | waitComplete : Ev
  | excelCreate : Ev
  | setExcelReady : Ev
  | uploadRun : Ev
deriving DecidableEq, Repr

/-- Occurrence count of one event in a trace. -/
def countEv (e : Ev) : List Ev → Nat
  | [] => 0
  | x :: rest => (if x = e then 1 else 0) + countEv e rest

/-- The program-order trace of _thread_bq_worker: on a filter or merge
failure the completion event is still set and the thread returns without
uploading; on success the completion event is set and the upload runs. -/
def bqWorker (filterOk mergeOk : Bool) : List Ev :=
  if filterOk = false then [Ev.setComplete]
  else if mergeOk = false then [Ev.setComplete]
  else [Ev.setComplete, Ev.uploadRun]

/-- The program-order trace and final error flag of _thread_excel_worker:
wait on the completion event, abort (still setting excel_ready) when the
error flag is set, otherwise run create_excel (whose failure only sets the
error flag) and set excel_ready. -/
def excelWorker (err createOk : Bool) : List Ev × Bool :=
  if err then ([Ev.waitComplete, Ev.setExcelReady], true)
  else ([Ev.waitComplete, Ev.excelCreate, Ev.setExcelReady], !createOk)

/-- The event trace of the Excel worker. -/
def exTrace (err createOk : Bool) : List Ev := (excelWorker err createOk).1

/-- A configuration of the two-thread run: the remaining program of each
worker, the state of the processing_complete event, and the global trace
so far. -/
structure Conf where
  bq : List Ev
  ex : List Ev
  sig : Bool
  tr : List Ev

/-- One interleaving step: either worker emits its next event; the Excel
worker may pass its waitComplete only when the completion event is
already set (the blocking semantics of threading.Event.wait). -/
inductive Step : Conf → Conf → Prop
  | bq (e : Ev) (rest : List Ev) (c : Conf) (h : c.bq = e :: rest) :
      Step c ⟨rest, c.ex, c.sig || decide (e = Ev.setComplete), c.tr ++ [e]⟩
  | ex (e : Ev) (rest : List Ev) (c : Conf) (h : c.ex = e :: rest)
      (hw : e = Ev.waitComplete → c.sig = true) :
      Step c ⟨c.bq, rest, c.sig || decide (e = Ev.setComplete), c.tr ++ [e]⟩

/-- The initial configuration of one run: the error flag the Excel worker
will observe at its wakeup is exactly the filter-or-merge failure flag,
since those are the only error-flag writes that happen before the
completion signal. -/
def initConf (filterOk mergeOk createOk : Bool) : Conf :=
  ⟨bqWorker filterOk mergeOk, exTrace (!(filterOk && mergeOk)) createOk, false, []⟩

/-- No excelCreate event occurs before the completion signal: every
excelCreate in every prefix of the trace is preceded by setComplete. -/
def NoEarlyRead (tr : List Ev) : Prop :=
  ∀ p, p <+: tr → Ev.excelCreate ∈ p → Ev.setComplete ∈ p

instance {ε α : Type} [DecidableEq ε] [DecidableEq α] : DecidableEq (Except ε α) := fun a b =>
  match a, b with
  | Except.ok x, Except.ok y =>
    if h : x = y then isTrue (by rw [h]) else isFalse (by intro hc; cases hc; exact h rfl)
  | Except.error x, Except.error y =>
    if h : x = y then isTrue (by rw [h]) else isFalse (by intro hc; cases hc; exact h rfl)
  | Except.ok _, Except.error _ => isFalse (by intro hc; cases hc)
  | Except.error _, Except.ok _ => isFalse (by intro hc; cases hc)

/-- An R033 dataframe whose two raw order keys differ only by a trailing
space: both survive the duplicate drop, and both normalise to A. -/
def dfDupKeys : DF := ⟨["OC"], [[Cell.str "A"], [Cell.str "A "]]⟩

/-- A one-row R033 side used by concrete runs. -/
def df33Small : DF := ⟨["OC", "Tienda"], [[Cell.str "A", Cell.str "CENDIS Norte"]]⟩

/-- A one-row R065 side used by concrete runs. -/
def df65Small : DF := ⟨["ORDEN COMPRA", "NRO FACTURA"], [[Cell.str "A", Cell.str "F1"]]⟩

/-- The reconciled output of df33Small with df65Small. -/
def resSmall : DF :=
  ⟨["ORDEN COMPRA", "NRO FACTURA", "Centro de Costo", "Estatus R033", "Grupo de Pago"],
   [[Cell.str "A", Cell.str "F1", Cell.str "CENDIS Norte", Cell.str "", Cell.str "CENDIS"]]⟩

/-- The BigQuery-prepared row of resSmall with timestamp 7. -/
def rowBQSmall : List Cell :=
  [Cell.str "A", Cell.str "F1", Cell.str "CENDIS Norte", Cell.str "", Cell.str "CENDIS", Cell.num 7]

/-- Two line-item rows of one supplier sharing one invoice id with amount
100 (the double-counting scenario of the Aggregator claim). -/
def dfResumen : DF :=
  ⟨["NOMBRE PROVEEDOR PADRE", "NRO FACTURA", "TOTAL"],
   [[Cell.str "P", Cell.str "F1", Cell.num 100], [Cell.str "P", Cell.str "F1", Cell.num 100]]⟩

/-- The summary row of supplier P in createResumen dfResumen. -/
def rowResumenP : List Cell := [Cell.str "P", Cell.num 1, Cell.num 100, Cell.num 2]

/-- A reconciled row-set without a supplier column. -/
def dfNoProv : DF := ⟨["X"], [[Cell.str "a"]]⟩

/-- Another reconciled row-set without a supplier column. -/
def dfNoProv2 : DF := ⟨["Y", "Z"], [[Cell.num 1, Cell.num 2]]⟩

/-- An R065 dataframe with a resolvable message column: one sentinel row
and one other row. -/
def dfMensaje : DF := ⟨["Mensaje"], [[Cell.str MENSAJE_FILTRO_R065], [Cell.str "otro"]]⟩

/-- The sentinel row of dfMensaje. -/
def rowMensaje : List Cell := [Cell.str MENSAJE_FILTRO_R065]

/-- An R065 dataframe whose single row carries the sentinel message, used
for a full successful concrete run. -/
def df65Sent : DF := ⟨["ORDEN COMPRA", "MENSAJE"], [[Cell.str "A", Cell.str MENSAJE_FILTRO_R065]]⟩

/-- Header-search rows whose second row matches the full vocabulary. -/
def rowsHeader : List (List Cell) := [[Cell.str "x"], [Cell.str "H1", Cell.str "H2"]]

/-- The vocabulary matching rowsHeader at index 1. -/
def expHeader : List String := ["H1", "H2"]

/-- The global trace of the fully successful concrete interleaving: the
BigQuery worker runs to completion, then the Excel worker. -/
def trRun : List Ev :=
  [Ev.setComplete, Ev.uploadRun, Ev.waitComplete, Ev.excelCreate, Ev.setExcelReady]

/-- The inductive invariant of the two-thread interleaving: each worker's
remaining program is a suffix of its full trace, the completion event is
set exactly once across the emitted trace and the remaining BigQuery
program, the sig flag mirrors the emitted setComplete, the Excel worker
has consumed its wait only with the signal set, no excelCreate was
emitted before the signal, and the emitted excelCreate events plus the
pending ones equal those of the full Excel trace. -/
def RunInv (filterOk mergeOk createOk : Bool) (c : Conf) : Prop :=
  c.bq <:+ bqWorker filterOk mergeOk ∧
  c.ex <:+ exTrace (!(filterOk && mergeOk)) createOk ∧
  countEv Ev.setComplete c.tr + countEv Ev.setComplete c.bq = 1 ∧
  (c.sig = true ↔ Ev.setComplete ∈ c.tr) ∧
  (c.ex ≠ exTrace (!(filterOk && mergeOk)) createOk → c.sig = true) ∧
  NoEarlyRead c.tr ∧
  countEv Ev.excelCreate c.tr + countEv Ev.excelCreate c.ex
    = countEv Ev.excelCreate (exTrace (!(filterOk && mergeOk)) createOk)

theorem dedupByKeyAux_nodup {α β : Type} [DecidableEq β] (k : α → β) :
    ∀ (l : List α) (seen : List β),
      ((dedupByKeyAux k l seen).map k).Nodup ∧
        ∀ x ∈ dedupByKeyAux k l seen, k x ∉ seen := by
  intro l
  induction l with
  | nil => intro seen; simp [dedupByKeyAux]
  | cons x rest ih =>
    intro seen
    by_cases hx : k x ∈ seen
    · simpa [dedupByKeyAux, hx] using ih seen
    · simp only [dedupByKeyAux, if_neg hx]
      refine ⟨?_, ?_⟩
      · simp only [List.map_cons, List.nodup_cons]
        refine ⟨?_, (ih (k x :: seen)).1⟩
        intro hmem
        rcases List.mem_map.mp hmem with ⟨y, hy, hky⟩
        exact (ih (k x :: seen)).2 y hy (by simp [hky])
      · intro y hy
        rcases List.mem_cons.mp hy with h | h
        · subst h; exact hx
        · intro hc
          exact (ih (k x :: seen)).2 y h (List.mem_cons_of_mem _ hc)

theorem dedupByKeyAux_find {α β : Type} [DecidableEq β] (k : α → β) (b : β) :
    ∀ (l : List α) (seen : List β), b ∉ seen →
      (dedupByKeyAux k l seen).find? (fun x => decide (k x = b))
        = l.find? (fun x => decide (k x = b)) := by
  intro l
  induction l with
  | nil => intro seen _; simp [dedupByKeyAux]
  | cons x rest ih =>
    intro seen hb
    by_cases hx : k x ∈ seen
    · have hne : ¬ (k x = b) := fun h => hb (h ▸ hx)
      simp only [dedupByKeyAux, if_pos hx]
      rw [List.find?_cons_of_neg _ (by simpa using hne)]
      exact ih seen hb
    · simp only [dedupByKeyAux, if_neg hx]
      by_cases heq : k x = b
      · rw [List.find?_cons_of_pos _ (by simpa using heq),
           List.find?_cons_of_pos _ (by simpa using heq)]
      · rw [List.find?_cons_of_neg _ (by simpa using heq),
           List.find?_cons_of_neg _ (by simpa using heq)]
        exact ih (k x :: seen) (by simp [hb, Ne.symm heq, heq])

theorem dedupByKeyAux_mem_find {α β : Type} [DecidableEq β] (k : α → β) :
    ∀ (l : List α) (seen : List β) (x : α), x ∈ dedupByKeyAux k l seen →
      k x ∉ seen ∧ l.find? (fun r => decide (k r = k x)) = some x := by
  intro l
  induction l with
  | nil => intro seen x hx; simp [dedupByKeyAux] at hx
  | cons y rest ih =>
    intro seen x hx
    by_cases hy : k y ∈ seen
    · simp only [dedupByKeyAux, if_pos hy] at hx
      obtain ⟨hns, hfind⟩ := ih seen x hx
      have hne : ¬ (k y = k x) := fun h => hns (h ▸ hy)
      exact ⟨hns, by rw [List.find?_cons_of_neg _ (by simpa using hne)]; exact hfind⟩
    · simp only [dedupByKeyAux, if_neg hy] at hx
      rcases List.mem_cons.mp hx with rfl | hx'
      · exact ⟨hy, by rw [List.find?_cons_of_pos _ (by simp)]⟩
      · obtain ⟨hns, hfind⟩ := ih _ x hx'
        have hne : ¬ (k y = k x) := fun h => hns (by simp [h])
        refine ⟨fun hc => hns (List.mem_cons_of_mem _ hc), ?_⟩
        rw [List.find?_cons_of_neg _ (by simpa using hne)]
        exact hfind

theorem dedupByKeyAux_map {α β : Type} [DecidableEq β] (k : α → β) :
    ∀ (l : List α) (seen : List β),
      (dedupByKeyAux k l seen).map k = dedupByKeyAux (fun c => c) (l.map k) seen := by
  intro l
  induction l with
  | nil => intro seen; simp [dedupByKeyAux]
  | cons x rest ih =>
    intro seen
    by_cases hx : k x ∈ seen
    · simp [dedupByKeyAux, hx, ih]
    · simp [dedupByKeyAux, hx, ih]

theorem dedupByKeyAux_filter_comm {α β γ : Type} [DecidableEq β] [DecidableEq γ]
    (p : α → β) (f : α → γ) (kk : β) :
    ∀ (l : List α) (seen2 : List (β × γ)) (seenf : List γ),
      (∀ fv, ((kk, fv) ∈ seen2 ↔ fv ∈ seenf)) →
      (dedupByKeyAux (fun x => (p x, f x)) l seen2).filter (fun x => decide (p x = kk))
        = dedupByKeyAux f (l.filter (fun x => decide (p x = kk))) seenf := by
  intro l
  induction l with
  | nil => intro s2 sf _; simp [dedupByKeyAux]
  | cons x rest ih =>
    intro s2 sf hinv
    by_cases hpx : p x = kk
    · subst hpx
      by_cases hm : (p x, f x) ∈ s2
      · have hfm : f x ∈ sf := (hinv (f x)).mp hm
        simp only [dedupByKeyAux, if_pos hm, List.filter_cons, decide_eq_true_eq, if_pos rfl]
        simp only [dedupByKeyAux, if_pos hfm]
        exact ih s2 sf hinv
      · have hfm : f x ∉ sf := fun h => hm ((hinv (f x)).mpr h)
        simp only [dedupByKeyAux, if_neg hm, List.filter_cons, decide_eq_true_eq, if_pos rfl]
        simp only [dedupByKeyAux, if_neg hfm]
        refine congrArg (List.cons x) (ih _ _ ?_)
        intro fv
        constructor
        · intro hv
          rcases List.mem_cons.mp hv with h | h
          · have : fv = f x := congrArg Prod.snd h
            subst this
            exact List.mem_cons_self _ _
          · exact List.mem_cons_of_mem _ ((hinv fv).mp h)
        · intro hv
          rcases List.mem_cons.mp hv with h | h
          · subst h
            exact List.mem_cons_self _ _
          · exact List.mem_cons_of_mem _ ((hinv fv).mpr h)
    · by_cases hm : (p x, f x) ∈ s2
      · simp only [dedupByKeyAux, if_pos hm, List.filter_cons, decide_eq_true_eq, if_neg hpx]
        exact ih s2 sf hinv
      · simp only [dedupByKeyAux, if_neg hm, List.filter_cons, decide_eq_true_eq, if_neg hpx]
        refine ih _ _ ?_
        intro fv
        constructor
        · intro hv
          rcases List.mem_cons.mp hv with h | h
          · exact absurd (congrArg Prod.fst h).symm hpx
          · exact (hinv fv).mp h
        · exact fun h => List.mem_cons_of_mem _ ((hinv fv).mpr h)

/-- C1 counterexample: on an R033 dataframe whose raw keys A and
A-with-trailing-space are distinct, both survive the duplicate drop
(which the source performs on the RAW key), and both then normalise to A,
so the lookup table built by reconcile carries two rows with the same
normalised key — the normalised key column is not unique. -/
theorem c1_counterexample :
    lookupOf dfDupKeys
      = some [("A", Cell.str "", Cell.str ""), ("A", Cell.str "", Cell.str "")] ∧
    ¬ (((lookupOf dfDupKeys).getD []).map (fun x => x.1)).Nodup := by
  exact ⟨by decide, by decide⟩

/-- C1 (amended): the LookupTable is deduplicated on the RAW order key
before normalisation: the raw keys of the duplicate-dropped table are
pairwise distinct and each surviving row is the first occurrence of its
raw key; only afterwards is the key normalised, so two raw-distinct keys
that normalise to the same string may both remain. -/
theorem c1_lookup_raw_key_unique (df33 : DF) (oc : String) (cc est : Option String) :
    ((lookupDedup df33 oc cc est).map (fun x => x.1)).Nodup ∧
    (∀ b, (lookupDedup df33 oc cc est).find? (fun x => decide (x.1 = b))
        = (projectLookup df33 oc cc est).find? (fun x => decide (x.1 = b))) ∧
    buildLookup df33 oc cc est
      = (lookupDedup df33 oc cc est).map (fun x => (trimStr (cellStr x.1), x.2.1, x.2.2)) := by
  refine ⟨?_, ?_, rfl⟩
  · exact (dedupByKeyAux_nodup (fun x => x.1) (projectLookup df33 oc cc est) []).1
  · intro b
    exact dedupByKeyAux_find (fun x => x.1) b (projectLookup df33 oc cc est) [] (by simp)

/-- C2: every row of the reconciled output of process_and_merge has a
non-null cost-centre cell whose string rendering, stripped, is non-empty:
joined rows with a blank or whitespace-only Centro de Costo are dropped
by PASO 4.6 before the Grupo de Pago derivation. -/
theorem c2_reconciled_nonblank_cc (df33 df65 : DF) (res : DF)
    (hlen : ∀ r ∈ df65.rows, r.length = df65.cols.length)
    (h : processAndMerge df33 df65 = Except.ok res) :
    ∀ r ∈ res.rows,
      cellNotNa (centroCell df65.cols.length r) = true ∧
      trimStr (cellStr (centroCell df65.cols.length r)) ≠ "" := by
  rcases h65 : resolveOC65 df65 with _ | oc65
  · simp [processAndMerge, h65] at h
  rcases h33 : resolveOC33 df33 with _ | oc33
  · simp [processAndMerge, h65, h33] at h
  simp only [processAndMerge, h65, h33, Except.ok.injEq] at h
  subst h
  intro r hr
  simp only at hr
  rcases List.mem_map.mp hr with ⟨r1, hr1, rfl⟩
  rcases List.mem_filter.mp hr1 with ⟨hrj, hkeep⟩
  have hlen1 : r1.length = df65.cols.length + 2 := by
    rcases List.mem_flatMap.mp hrj with ⟨r0, hr0, hjoin⟩
    unfold leftJoinRow at hjoin
    rcases hfil : (buildLookup df33 oc33 (resolveTienda df33) (resolveEstatus df33)).filter
        (fun x => decide (x.1 = trimStr (cellStr (getCell df65.cols r0 oc65)))) with _ | ⟨m, ms⟩
    · rw [hfil] at hjoin
      simp only [List.mem_singleton] at hjoin
      subst hjoin
      simp [hlen r0 hr0]
    · rw [hfil] at hjoin
      rcases List.mem_map.mp hjoin with ⟨x, _, rfl⟩
      simp [hlen r0 hr0]
  have hcc : centroCell df65.cols.length (r1 ++ [grupoDePago (centroCell df65.cols.length r1)])
      = centroCell df65.cols.length r1 := by
    unfold centroCell
    exact List.getD_append _ _ _ _ (by omega)
  rw [hcc]
  unfold keepRow at hkeep
  rw [Bool.and_eq_true] at hkeep
  exact ⟨hkeep.1, by simpa using hkeep.2⟩

/-- C2 witness: the concrete successful run of df33Small with df65Small
has exactly one reconciled row, whose cost centre is the non-blank
CENDIS Norte. -/
theorem c2_witness :
    cellNotNa (centroCell df65Small.cols.length
      [Cell.str "A", Cell.str "F1", Cell.str "CENDIS Norte", Cell.str "", Cell.str "CENDIS"]) = true ∧
    trimStr (cellStr (centroCell df65Small.cols.length
      [Cell.str "A", Cell.str "F1", Cell.str "CENDIS Norte", Cell.str "", Cell.str "CENDIS"])) ≠ "" := by
  exact c2_reconciled_nonblank_cc df33Small df65Small resSmall
    (by decide) (by decide) _ (by decide)

/-- C6 counterexample: on a reconciled row-set without a supplier column,
_create_resumen returns an EMPTY dataframe (no AggregateError, no error
flag), and create_excel silently writes the workbook without the summary
sheet — the Aggregator degrades instead of failing. -/
theorem c6_counterexample :
    createResumen dfNoProv = DF.emptyDF ∧
    createExcelSheets dfNoProv = [("Resultado", dfNoProv)] :=
  ⟨by decide, by decide⟩

/-- C6 (amended): when the supplier-equivalent column cannot be resolved
by exact match, the Aggregator returns an empty summary dataframe and the
workbook simply omits the summary sheet; no error is raised and nothing is
surfaced to the caller. -/
theorem c6_aggregator_degrades (df : DF)
    (h : findColumn df.cols ["NOMBRE PROVEEDOR PADRE"] true = none) :
    createResumen df = DF.emptyDF ∧ createExcelSheets df = [("Resultado", df)] := by
  have h1 : createResumen df = DF.emptyDF := by
    unfold createResumen
    rw [h]
  refine ⟨h1, ?_⟩
  unfold createExcelSheets
  rw [h1]
  simp [DF.emptyDF]

/-- C6 witness: the degradation at a second concrete supplier-less input. -/
theorem c6_witness :
    createResumen dfNoProv2 = DF.emptyDF ∧
    createExcelSheets dfNoProv2 = [("Resultado", dfNoProv2)] :=
  c6_aggregator_degrades dfNoProv2 (by decide)

/-- C7: filter_r065 returns a full copy of its input when no column name
contains MENSAJE case-insensitively, and otherwise retains exactly the
rows whose resolved message value, stripped, equals the sentinel string by
exact case-sensitive comparison. -/
theorem c7_filter_spec (df : DF) :
    (mensajeColOf df = none → filterR065 df = df) ∧
    (∀ c, mensajeColOf df = some c →
      (filterR065 df).cols = df.cols ∧
      ∀ r, r ∈ (filterR065 df).rows ↔
        (r ∈ df.rows ∧ trimStr (cellStr (getCell df.cols r c)) = MENSAJE_FILTRO_R065)) := by
  constructor
  · intro h
    unfold filterR065
    rw [h]
  · intro c hc
    unfold filterR065
    rw [hc]
    refine ⟨rfl, ?_⟩
    intro r
    simp [List.mem_filter]

/-- C7 witness: on dfMensaje the column Mensaje resolves, and the
sentinel row is retained by the filter. -/
theorem c7_witness :
    mensajeColOf dfMensaje = some "Mensaje" ∧
    (filterR065 dfMensaje).cols = dfMensaje.cols ∧
    (rowMensaje ∈ (filterR065 dfMensaje).rows ↔
      (rowMensaje ∈ dfMensaje.rows ∧
        trimStr (cellStr (getCell dfMensaje.cols rowMensaje "Mensaje")) = MENSAJE_FILTRO_R065)) := by
  refine ⟨by decide, ?_, ?_⟩
  · exact ((c7_filter_spec dfMensaje).2 "Mensaje" (by decide)).1
  · exact ((c7_filter_spec dfMensaje).2 "Mensaje" (by decide)).2 rowMensaje

/-- C8: when loading, filtering, merging and workbook creation succeed,
the final ProcessingResult has success true, a null error and the workbook
path referenced, for BOTH outcomes of the warehouse upload — the upload
result is never consulted by the response builder. -/
theorem c8_upload_failure_nonfatal (df33 df65 : DF) (res : DF) (path : String) (u : Bool)
    (h : processAndMerge df33 (filterR065 df65) = Except.ok res) :
    (mainRun true df33 df65 true u path).success = true ∧
    (mainRun true df33 df65 true u path).error = none ∧
    (mainRun true df33 df65 true u path).excel_path = some path := by
  simp [mainRun, h]

/-- C8 witness: the concrete successful run with a FAILED upload still
returns success with the workbook path. -/
theorem c8_witness :
    (mainRun true df33Small df65Sent true false "results/out.xlsx").success = true ∧
    (mainRun true df33Small df65Sent true false "results/out.xlsx").error = none ∧
    (mainRun true df33Small df65Sent true false "results/out.xlsx").excel_path
      = some "results/out.xlsx" :=
  c8_upload_failure_nonfatal df33Small df65Sent
    ⟨["ORDEN COMPRA", "MENSAJE", "Centro de Costo", "Estatus R033", "Grupo de Pago"],
     [[Cell.str "A", Cell.str MENSAJE_FILTRO_R065, Cell.str "CENDIS Norte", Cell.str "",
       Cell.str "CENDIS"]]⟩
    "results/out.xlsx" false (by decide)

theorem findHeaderAux_total (expected : List String) (hne : expected ≠ []) :
    ∀ (l : List (List Cell)) (i : Nat),
      ∃ j, findHeaderAux expected i l = some j ∧
        ((∃ t, t < l.length ∧ j = i + t ∧ rowQualifies expected (l.getD t []) = true ∧
          ∀ s, s < t → rowQualifies expected (l.getD s []) = false) ∨
         (j = 0 ∧ ∀ s, s < l.length → rowQualifies expected (l.getD s []) = false)) := by
  have hE : expected.isEmpty = false := by
    cases expected with
    | nil => exact absurd rfl hne
    | cons a t => rfl
  intro l
  induction l with
  | nil =>
    intro i
    refine ⟨0, rfl, Or.inr ⟨rfl, ?_⟩⟩
    intro s hs
    simp at hs
  | cons r rest ih =>
    intro i
    by_cases hq : rowQualifies expected r = true
    · refine ⟨i, ?_, Or.inl ⟨0, by simp, by omega, by simpa using hq, ?_⟩⟩
      · simp [findHeaderAux, hE, hq]
      · intro s hs
        omega
    · have hqf : rowQualifies expected r = false := by
        cases hqv : rowQualifies expected r with
        | false => rfl
        | true => exact absurd hqv hq
      obtain ⟨j, hj, hcase⟩ := ih (i + 1)
      refine ⟨j, ?_, ?_⟩
      · simp [findHeaderAux, hE, hqf, hj]
      · rcases hcase with ⟨t, ht, hjt, hqt, hlt⟩ | ⟨hj0, hall⟩
        · refine Or.inl ⟨t + 1, by simpa using ht, by omega, by simpa using hqt, ?_⟩
          intro s hs
          cases s with
          | zero => simpa using hqf
          | succ s1 => simpa using hlt s1 (by omega)
        · refine Or.inr ⟨hj0, ?_⟩
          intro s hs
          cases s with
          | zero => simpa using hqf
          | succ s1 => simpa using hall s1 (by simpa using hs)

/-- C4 (amended): for every row sequence and every NONEMPTY vocabulary,
the header locator totally returns an index i that is either the smallest
index in the window of the first min(20, len(rows)) rows whose match
ratio reaches 0.7, or 0 when no index in the window qualifies.  (On an
empty vocabulary with a nonempty window the source raises a
ZeroDivisionError, so the claim's totality on EVERY vocabulary fails.) -/
theorem c4_locator_first_match (rows : List (List Cell)) (expected : List String)
    (hne : expected ≠ []) :
    (headerWindow rows).length = min 20 rows.length ∧
    ∃ i, findHeaderRow rows expected = some i ∧
      ((i < (headerWindow rows).length ∧
        rowQualifies expected ((headerWindow rows).getD i []) = true ∧
        (∀ s, s < i → rowQualifies expected ((headerWindow rows).getD s []) = false)) ∨
       (i = 0 ∧ ∀ s, s < (headerWindow rows).length →
          rowQualifies expected ((headerWindow rows).getD s []) = false)) := by
  refine ⟨by simp [headerWindow], ?_⟩
  obtain ⟨j, hj, hcase⟩ := findHeaderAux_total expected hne (headerWindow rows) 0
  refine ⟨j, hj, ?_⟩
  rcases hcase with ⟨t, ht, hjt, hqt, hlt⟩ | h0
  · exact Or.inl ⟨by omega, by rw [show j = t by omega]; exact hqt,
      fun s hs => hlt s (by omega)⟩
  · exact Or.inr h0

/-- C4 counterexample: on a one-row sheet with an EMPTY expected-header
vocabulary the source computes 0 / 0 and raises a ZeroDivisionError
(modelled as none) instead of returning an index, so the locator is not
total on every input as the claim states. -/
theorem c4_counterexample :
    findHeaderRow [[Cell.str "a"]] [] = none := by decide

/-- C4 witness: on rowsHeader with the two-word vocabulary, the locator
returns index 1, the first (and only) qualifying row of the window. -/
theorem c4_witness :
    findHeaderRow rowsHeader expHeader = some 1 ∧
    rowQualifies expHeader ((headerWindow rowsHeader).getD 1 []) = true ∧
    rowQualifies expHeader ((headerWindow rowsHeader).getD 0 []) = false := by
  obtain ⟨hlen, i, hi, hcase⟩ := c4_locator_first_match rowsHeader expHeader (by decide)
  exact ⟨by decide, by decide, by decide⟩

/-- C9 counterexample: the reconciled output of the concrete run carries
exactly the input columns plus Centro de Costo, Estatus R033 and Grupo de
Pago — no processing-timestamp column is stamped by reconcile. -/
theorem c9_counterexample :
    processAndMerge df33Small df65Small = Except.ok resSmall ∧
    "col_vpn_timestamp" ∉ resSmall.cols :=
  ⟨by decide, by decide⟩

/-- C9 (amended): reconcile adds only the three derived columns Centro de
Costo, Estatus R033 and Grupo de Pago; the processing timestamp is
stamped by the warehouse-row preparation step onto its own copy, as the
final column col_vpn_timestamp, and its value is the same scalar ts on
every row of one run. -/
theorem c9_timestamp_in_bq_prep (df33 df65 res : DF) (fdt fd : Cell → Cell) (ts : Int)
    (h : processAndMerge df33 df65 = Except.ok res) :
    res.cols = df65.cols ++ ["Centro de Costo", "Estatus R033", "Grupo de Pago"] ∧
    (prepareForBigQuery fdt fd res ts).cols.getLast? = some "col_vpn_timestamp" ∧
    ∀ r ∈ (prepareForBigQuery fdt fd res ts).rows, r.getLast? = some (Cell.num ts) := by
  refine ⟨?_, ?_, ?_⟩
  · rcases h65 : resolveOC65 df65 with _ | oc65
    · simp [processAndMerge, h65] at h
    rcases h33 : resolveOC33 df33 with _ | oc33
    · simp [processAndMerge, h65, h33] at h
    simp only [processAndMerge, h65, h33, Except.ok.injEq] at h
    rw [← h]
  · simp [prepareForBigQuery]
  · intro r hr
    simp only [prepareForBigQuery] at hr
    rcases List.mem_map.mp hr with ⟨r0, _, rfl⟩
    simp

/-- C9 witness: the concrete prepared row-set of resSmall with timestamp
7 ends in the timestamp column, and its single row ends in the value 7. -/
theorem c9_witness :
    resSmall.cols = df65Small.cols ++ ["Centro de Costo", "Estatus R033", "Grupo de Pago"] ∧
    (prepareForBigQuery (fun c => c) (fun c => c) resSmall 7).cols.getLast?
      = some "col_vpn_timestamp" ∧
    rowBQSmall.getLast? = some (Cell.num 7) := by
  obtain ⟨h1, h2, h3⟩ := c9_timestamp_in_bq_prep df33Small df65Small resSmall
    (fun c => c) (fun c => c) 7 (by decide)
  exact ⟨h1, h2, h3 rowBQSmall (by decide)⟩

theorem mem_insertDesc (x y : List Cell) (l : List (List Cell)) :
    y ∈ insertDesc x l ↔ y = x ∨ y ∈ l := by
  induction l with
  | nil => simp [insertDesc]
  | cons z rest ih =>
    unfold insertDesc
    by_cases hc : montoOfRow z < montoOfRow x
    · simp [hc]
    · simp only [if_neg hc, List.mem_cons, ih]
      tauto

theorem mem_sortByMontoDesc (y : List Cell) (l : List (List Cell)) :
    y ∈ sortByMontoDesc l ↔ y ∈ l := by
  induction l with
  | nil => simp [sortByMontoDesc]
  | cons x rest ih => simp [sortByMontoDesc, mem_insertDesc, ih]

theorem montoTotalOf_eq_spec (df : DF) (prov f m : String) (k : Cell) :
    montoTotalOf df prov (some f) (some m) k = specAmountTotal df prov f m k := by
  simp only [montoTotalOf, specAmountTotal, pairsDedup, dedupByKey]
  rw [dedupByKeyAux_filter_comm (fun r => getCell df.cols r prov)
    (fun r => getCell df.cols r f) k df.rows [] [] (by simp)]
  rw [← dedupByKeyAux_map (fun r => getCell df.cols r f)
    (df.rows.filter (fun r => decide (getCell df.cols r prov = k))) []]
  rw [List.map_map]
  congr 1
  apply List.map_congr_left
  intro x hx
  obtain ⟨-, hfind⟩ := dedupByKeyAux_mem_find (fun r => getCell df.cols r f) _ [] x hx
  simp only [Function.comp_apply, hfind]

/-- C3: on a reconciled row-set whose supplier, invoice and amount
columns all resolve, every non-TOTAL summary row of the Aggregator
carries, as its Monto Total, the sum over the distinct (supplier,
invoice) pairs of that supplier of the FIRST amount seen for each pair —
line items sharing one invoice are not double-counted. -/
theorem c3_amount_total (df : DF) (prov fact monto : String) (k : Cell) (row : List Cell)
    (hprov : findColumn df.cols ["NOMBRE PROVEEDOR PADRE"] true = some prov)
    (hfact : findColumn df.cols ["NRO FACTURA"] false = some fact)
    (hmonto : findColumn df.cols ["TOTAL"] true = some monto)
    (hrow : row ∈ (createResumen df).rows)
    (hk : row.getD 0 Cell.blank = k)
    (hkt : k ≠ Cell.str "TOTAL") :
    row.getD 2 Cell.blank = Cell.num (specAmountTotal df prov fact monto k) := by
  unfold createResumen at hrow
  rw [hprov] at hrow
  simp only [hfact, hmonto] at hrow
  rcases List.mem_append.mp hrow with hmem | hmem
  · rw [mem_sortByMontoDesc] at hmem
    rcases List.mem_map.mp hmem with ⟨k0, hk0, rfl⟩
    have hk2 : k0 = k := hk
    have hval : ([k0, Cell.num (nFactsOf df prov (some fact) (some monto) k0),
        Cell.num (montoTotalOf df prov (some fact) (some monto) k0),
        Cell.num (nItemsOf df prov (findColumn df.cols ["ITEM DESCRIPCION"] true) k0)]).getD 2
          Cell.blank
        = Cell.num (montoTotalOf df prov (some fact) (some monto) k0) := rfl
    rw [hval, ← hk2, montoTotalOf_eq_spec]
  · simp only [List.mem_singleton] at hmem
    subst hmem
    exact absurd (show Cell.str "TOTAL" = k from hk).symm hkt

/-- C3 witness: the double-counting scenario — two rows of supplier P
share invoice F1 with amount 100; the summary row of P carries Monto
Total 100, not 200. -/
theorem c3_witness :
    rowResumenP ∈ (createResumen dfResumen).rows ∧
    rowResumenP.getD 2 Cell.blank
      = Cell.num (specAmountTotal dfResumen "NOMBRE PROVEEDOR PADRE" "NRO FACTURA" "TOTAL"
          (Cell.str "P")) ∧
    specAmountTotal dfResumen "NOMBRE PROVEEDOR PADRE" "NRO FACTURA" "TOTAL" (Cell.str "P")
      = 100 := by
  refine ⟨by decide, ?_, by decide⟩
  exact c3_amount_total dfResumen "NOMBRE PROVEEDOR PADRE" "NRO FACTURA" "TOTAL"
    (Cell.str "P") rowResumenP (by decide) (by decide) (by decide) (by decide)
    (by decide) (by decide)

theorem countEv_append (e : Ev) (l1 l2 : List Ev) :
    countEv e (l1 ++ l2) = countEv e l1 + countEv e l2 := by
  induction l1 with
  | nil => simp [countEv]
  | cons x r ih =>
    show (if x = e then 1 else 0) + countEv e (r ++ l2)
      = ((if x = e then 1 else 0) + countEv e r) + countEv e l2
    rw [ih]
    omega

theorem countEv_eq_zero_iff (e : Ev) (l : List Ev) : countEv e l = 0 ↔ e ∉ l := by
  induction l with
  | nil => simp [countEv]
  | cons x r ih =>
    by_cases hx : x = e
    · subst hx
      simp [countEv]
    · simp only [countEv, if_neg hx, List.mem_cons]
      constructor
      · intro h hc
        rcases hc with rfl | hc
        · exact hx rfl
        · exact (ih.mp (by omega)) hc
      · intro h
        have h2 : e ∉ r := fun hc => h (Or.inr hc)
        have h3 := ih.mpr h2
        omega

theorem bqWorker_events (f m : Bool) (e : Ev) (he : e ∈ bqWorker f m) :
    e = Ev.setComplete ∨ e = Ev.uploadRun := by
  cases f <;> cases m <;> simp [bqWorker] at he <;> tauto

theorem bqWorker_set_count (f m : Bool) :
    countEv Ev.setComplete (bqWorker f m) = 1 := by
  cases f <;> cases m <;> decide

theorem exTrace_events (err cOk : Bool) (e : Ev) (he : e ∈ exTrace err cOk) :
    e = Ev.waitComplete ∨ e = Ev.excelCreate ∨ e = Ev.setExcelReady := by
  cases err <;> simp [exTrace, excelWorker] at he <;> tauto

theorem exTrace_head (err cOk : Bool) :
    ∃ t, exTrace err cOk = Ev.waitComplete :: t := by
  cases err
  · exact ⟨[Ev.excelCreate, Ev.setExcelReady], rfl⟩
  · exact ⟨[Ev.setExcelReady], rfl⟩

theorem noEarlyRead_nil : NoEarlyRead [] := by
  intro p hp hmem
  rw [List.prefix_nil.mp hp] at hmem
  simp at hmem

theorem noEarlyRead_append (tr : List Ev) (e : Ev) (h : NoEarlyRead tr)
    (he : e = Ev.excelCreate → Ev.setComplete ∈ tr) :
    NoEarlyRead (tr ++ [e]) := by
  intro p hp hmem
  rcases List.prefix_concat_iff.mp hp with h1 | h1
  · subst h1
    rcases List.mem_append.mp hmem with h2 | h2
    · exact List.mem_append.mpr (Or.inl (h tr (List.prefix_refl _) h2))
    · simp only [List.mem_singleton] at h2
      exact List.mem_append.mpr (Or.inl (he h2.symm))
  · exact h p h1 hmem

theorem runInv_step (f m cOk : Bool) (c c' : Conf)
    (hinv : RunInv f m cOk c) (hs : Step c c') : RunInv f m cOk c' := by
  obtain ⟨hbq, hex, hcnt, hsig, hwait, hread, hcex⟩ := hinv
  cases hs with
  | bq e rest _ h =>
    unfold RunInv
    dsimp only
    have hebq : e ∈ bqWorker f m := hbq.subset (by rw [h]; exact List.mem_cons_self e rest)
    have hnotcreate : e ≠ Ev.excelCreate := by
      rcases bqWorker_events f m e hebq with rfl | rfl <;> simp
    have hbcount : countEv Ev.setComplete c.bq
        = (if e = Ev.setComplete then 1 else 0) + countEv Ev.setComplete rest := by
      rw [h]; rfl
    refine ⟨?_, hex, ?_, ?_, ?_, ?_, ?_⟩
    · exact List.IsSuffix.trans (by rw [h]; exact List.suffix_cons e rest) hbq
    · rw [countEv_append]
      simp only [countEv]
      rw [hbcount] at hcnt
      omega
    · simp only [Bool.or_eq_true, decide_eq_true_eq]
      constructor
      · intro h2
        rcases h2 with h2 | h2
        · exact List.mem_append.mpr (Or.inl (hsig.mp h2))
        · exact List.mem_append.mpr (Or.inr (by simp [h2]))
      · intro h2
        rcases List.mem_append.mp h2 with h2 | h2
        · exact Or.inl (hsig.mpr h2)
        · simp only [List.mem_singleton] at h2
          exact Or.inr h2.symm
    · intro hne
      rw [hwait hne]
      rfl
    · refine noEarlyRead_append _ _ hread ?_
      intro hc
      exact absurd hc hnotcreate
    · rw [countEv_append]
      have hz : countEv Ev.excelCreate [e] = 0 := by
        simp [countEv, hnotcreate]
      omega
  | ex e rest _ h hw =>
    unfold RunInv
    dsimp only
    have heex : e ∈ exTrace (!(f && m)) cOk :=
      hex.subset (by rw [h]; exact List.mem_cons_self e rest)
    have hnotset : e ≠ Ev.setComplete := by
      rcases exTrace_events _ _ e heex with rfl | rfl | rfl <;> simp
    have hsig_now : c.sig = true := by
      by_cases hwv : e = Ev.waitComplete
      · exact hw hwv
      · apply hwait
        obtain ⟨t, hfull⟩ := exTrace_head (!(f && m)) cOk
        intro hceq
        rw [hceq, hfull] at h
        exact hwv (by injection h with h1 _; exact h1.symm)
    have hdz : decide (e = Ev.setComplete) = false := by simp [hnotset]
    have hexcount : countEv Ev.excelCreate c.ex
        = (if e = Ev.excelCreate then 1 else 0) + countEv Ev.excelCreate rest := by
      rw [h]; rfl
    refine ⟨hbq, ?_, ?_, ?_, ?_, ?_, ?_⟩
    · exact List.IsSuffix.trans (by rw [h]; exact List.suffix_cons e rest) hex
    · rw [countEv_append]
      have hz : countEv Ev.setComplete [e] = 0 := by simp [countEv, hnotset]
      omega
    · rw [hdz]
      simp only [Bool.or_false]
      rw [hsig_now]
      constructor
      · intro _
        exact List.mem_append.mpr (Or.inl (hsig.mp hsig_now))
      · intro _
        rfl
    · intro _
      rw [hdz]
      simp only [Bool.or_false]
      exact hsig_now
    · refine noEarlyRead_append _ _ hread ?_
      intro _
      exact hsig.mp hsig_now
    · rw [countEv_append]
      simp only [countEv, List.append_nil]
      rw [hexcount] at hcex
      omega

theorem runInv_init (f m cOk : Bool) : RunInv f m cOk (initConf f m cOk) := by
  refine ⟨List.suffix_refl _, List.suffix_refl _, ?_, ?_, ?_, noEarlyRead_nil, ?_⟩
  · simpa [initConf, countEv] using bqWorker_set_count f m
  · simp [initConf, countEv]
  · intro hne
    exact absurd rfl hne
  · simp [initConf, countEv]

theorem runInv_reachable (f m cOk : Bool) (c : Conf)
    (h : Relation.ReflTransGen Step (initConf f m cOk) c) : RunInv f m cOk c := by
  induction h with
  | refl => exact runInv_init f m cOk
  | tail _ hstep ih => exact runInv_step f m cOk _ _ ih hstep

/-- C5: in every complete interleaved run of the two workers, the
processing-completion signal fires exactly once (also when filtering or
merging fails), no read of the reconciled row-set by the workbook worker
(excelCreate) occurs before the signal in any prefix of the trace, and
when the error flag is set at signal time (a filter or merge failure) the
workbook worker aborts without ever running create_excel. -/
theorem c5_signal_once_and_gated (f m cOk : Bool) (c : Conf)
    (hreach : Relation.ReflTransGen Step (initConf f m cOk) c)
    (hbq : c.bq = []) (hex : c.ex = []) :
    countEv Ev.setComplete c.tr = 1 ∧
    NoEarlyRead c.tr ∧
    ((f && m) = false → Ev.excelCreate ∉ c.tr) := by
  obtain ⟨h1, h2, h3, h4, h5, h6, h7⟩ := runInv_reachable f m cOk c hreach
  refine ⟨?_, h6, ?_⟩
  · rw [hbq] at h3
    simpa [countEv] using h3
  · intro hf
    rw [hex] at h7
    have hz : countEv Ev.excelCreate (exTrace (!(f && m)) cOk) = 0 := by
      rw [hf]
      cases cOk <;> decide
    rw [hz] at h7
    have h8 : countEv Ev.excelCreate c.tr = 0 := by
      simpa [countEv] using h7
    exact (countEv_eq_zero_iff _ _).mp h8

/-- C5 witness: the fully successful concrete run whose trace is trRun
satisfies all three conclusions. -/
theorem c5_witness :
    countEv Ev.setComplete trRun = 1 ∧
    NoEarlyRead trRun ∧
    ((true && true) = false → Ev.excelCreate ∉ trRun) := by
  refine c5_signal_once_and_gated true true true ⟨[], [], true, trRun⟩ ?_ rfl rfl
  exact Relation.ReflTransGen.head
    (Step.bq Ev.setComplete [Ev.uploadRun] _ rfl)
    (Relation.ReflTransGen.head (Step.bq Ev.uploadRun [] _ rfl)
      (Relation.ReflTransGen.head
        (Step.ex Ev.waitComplete [Ev.excelCreate, Ev.setExcelReady] _ rfl (fun _ => rfl))
        (Relation.ReflTransGen.head
          (Step.ex Ev.excelCreate [Ev.setExcelReady] _ rfl (fun hc => nomatch hc))
          (Relation.ReflTransGen.head
            (Step.ex Ev.setExcelReady [] _ rfl (fun hc => nomatch hc))
            Relation.ReflTransGen.refl))))

/-- C10: on every path of the workbook worker — the error-abort path and
the create path, whether creation succeeds or fails — the excel_ready
event is set exactly once, and it is the last action before returning, so
a caller waiting on it never deadlocks. -/
theorem c10_excel_ready_once (err createOk : Bool) :
    countEv Ev.setExcelReady (exTrace err createOk) = 1 ∧
    (exTrace err createOk).getLast? = some Ev.setExcelReady := by
  cases err <;> cases createOk <;> exact ⟨by decide, by decide⟩
